import Mathlib

/-!
Verification development for the TradingBot repository.

Shallow embedding of the pattern-detection / scoring / risk-gating core
(src/core/base_bot.py, src/utils/data_validator.py,
src/indicators/market_context.py, src/bot_live.py) over rational numbers.
Pandas NaN propagation is modelled with Option; a raised
DataValidationError is modelled as a failed (False) validation predicate
or a none result.

The rational arithmetic of Batteries is marked irreducible, which blocks
decide on concrete inputs; it is restored to semireducible here so that
witnesses can evaluate the embedded functions.
-/

attribute [local semireducible] Rat.add Rat.sub Rat.mul Rat.inv Rat.ofScientific

namespace TradingBot

/-- One OHLCV bar, a row of the candles DataFrame.  The field open is called
open_ because open is a Lean keyword. -/
structure Candle where
  timestamp : ℤ
  open_ : ℚ
  high : ℚ
  low : ℚ
  close : ℚ
  volume : ℚ
  deriving Repr, DecidableEq

def dummyCandle : Candle := ⟨0, 0, 0, 0, 0, 0⟩

/-- df.iloc i on the candles frame (call sites keep i in range). -/
def getC (df : List Candle) (i : ℕ) : Candle := df.getD i dummyCandle

/-- body_size = abs(close - open), from find_order_blocks. -/
def bodySize (c : Candle) : ℚ := |c.close - c.open_|

/-- series.rolling(20).mean() evaluated at row i: none (NaN) while fewer
than 20 rows are available, i.e. for i < 19, else the mean over rows
i-19 .. i. -/
def rollingMean20 (xs : List ℚ) (i : ℕ) : Option ℚ :=
  if 19 ≤ i ∧ i < xs.length then
    some ((((List.range 20).map (fun k => xs.getD (i - k) 0)).sum) / 20)
  else none

/-- avg_body of find_order_blocks: body_size.rolling(20).mean() at row i. -/
def avgBody (df : List Candle) (i : ℕ) : Option ℚ :=
  rollingMean20 (df.map bodySize) i

/-- volume.rolling(20).mean() at row i, used by calculate_pattern_score. -/
def avgVolume (df : List Candle) (i : ℕ) : Option ℚ :=
  rollingMean20 (df.map Candle.volume) i

/-- Acceptance set of DataValidator.validate_price: the checks that raise
are price ≤ 0, price < MIN_GOLD_PRICE (100.0) and price > MAX_GOLD_PRICE
(10000.0); the bounds are literals in DataValidator.__init__, independent
of the configured contract. -/
def validPrice (p : ℚ) : Prop := 0 < p ∧ 100 ≤ p ∧ p ≤ 10000

instance (p : ℚ) : Decidable (validPrice p) := by
  unfold validPrice; infer_instance

/-- Acceptance set of DataValidator.validate_candles_df: at least 3 rows,
every price of every row positive and inside the hardcoded gold bounds,
per-row OHLC relations, no adjacent close-to-close change above
MAX_PRICE_CHANGE_PCT = 0.05, no negative volume.  (The NaN and
missing-column checks are vacuous in this model.) -/
def validCandlesDf (df : List Candle) : Prop :=
  3 ≤ df.length ∧
  (∀ c ∈ df, validPrice c.open_ ∧ validPrice c.high ∧
      validPrice c.low ∧ validPrice c.close) ∧
  (∀ c ∈ df, ¬(c.high < max c.open_ c.close) ∧ ¬(min c.open_ c.close < c.low)) ∧
  (∀ pr ∈ df.zip df.tail, |(pr.2.close - pr.1.close) / pr.1.close| ≤ 0.05) ∧
  (∀ c ∈ df, 0 ≤ c.volume)

instance (df : List Candle) : Decidable (validCandlesDf df) := by
  unfold validCandlesDf; infer_instance

/-- A detected order block, the dict built by find_order_blocks (the
unused top/bottom keys are dropped).  type is the string tag; index is a
Python int, hence ℤ. -/
structure Pattern where
  type : String
  level : ℚ
  index : ℤ
  timestamp : ℤ
  strength : ℚ
  deriving Repr, DecidableEq

/-- Loop body of find_order_blocks at index i: skip while avg_body is NaN
or ≤ 0, else test the bullish branch, then the bearish elif. -/
def detectAt (df : List Candle) (i : ℕ) : Option Pattern :=
  match avgBody df i with
  | none => none
  | some ab =>
    if ab ≤ 0 then none
    else
      let current := getC df i
      let next := getC df (i + 1)
      let strength := min (bodySize current / ab) 3
      if current.close < current.open_ ∧ 1.5 * ab < bodySize current ∧
          current.high < next.close ∧ next.open_ < next.close then
        some ⟨"bullish", current.low, (i : ℤ), current.timestamp, strength⟩
      else if current.open_ < current.close ∧ 1.5 * ab < bodySize current ∧
          next.close < current.low ∧ next.close < next.open_ then
        some ⟨"bearish", current.high, (i : ℤ), current.timestamp, strength⟩
      else none

/-- BaseGoldBot.find_order_blocks: empty for fewer than 3 rows, empty when
validation raises, else the loop over i in range(max(0, len - max_age),
len - 1).  (ℕ subtraction gives the max(0, ·).) -/
def findOrderBlocks (maxAge : ℕ) (df : List Candle) : List Pattern :=
  if df.length < 3 then []
  else if validCandlesDf df then
    (List.range' (df.length - maxAge) (df.length - 1 - (df.length - maxAge))).filterMap
      (detectAt df)
  else []

/-- Acceptance set of DataValidator.validate_pattern: the type tag must be
bullish or bearish, the level must pass validate_price, the index must be
a non-negative int.  (Field presence is structural here; note the index
is NOT checked against any series length.) -/
def validPattern (p : Pattern) : Prop :=
  (p.type = "bullish" ∨ p.type = "bearish") ∧ validPrice p.level ∧ 0 ≤ p.index

instance (p : Pattern) : Decidable (validPattern p) := by
  unfold validPattern; infer_instance

/-- Strength component: min(strength * 2, 3). -/
def strengthScore (p : Pattern) : ℚ := min (p.strength * 2) 3

/-- Volume-confirmation component: +2 when the index is inside the frame,
the rolling average volume there is defined (not NaN) and positive, and
the block candle volume exceeds 1.5 x that average. -/
def volumeBonus (p : Pattern) (df : List Candle) : ℚ :=
  if p.index < (df.length : ℤ) then
    match avgVolume df p.index.toNat with
    | some av =>
      if 0 < av ∧ av * 1.5 < (getC df p.index.toNat).volume then 2 else 0
    | none => 0
  else 0

/-- Recency component: age = len(df) - index (a Python int, possibly ≤ 0);
+2 for age < 10, +1 for age < 25, else 0. -/
def recencyBonus (p : Pattern) (df : List Candle) : ℚ :=
  if (df.length : ℤ) - p.index < 10 then 2
  else if (df.length : ℤ) - p.index < 25 then 1
  else 0

/-- Clean-move component: +2 when the level has not been breached since
the pattern candle; the min/max over an empty tail is NaN in pandas and
the NaN comparison is False, modelled by the none branch. -/
def cleanMoveBonus (tol : ℚ) (p : Pattern) (df : List Candle) : ℚ :=
  if p.type = "bullish" then
    match ((df.drop p.index.toNat).map Candle.low).min? with
    | none => 0
    | some m => if p.level * (1 - tol) < m then 2 else 0
  else
    match ((df.drop p.index.toNat).map Candle.high).max? with
    | none => 0
    | some m => if m < p.level * (1 + tol) then 2 else 0

/-- BaseGoldBot.calculate_pattern_score: 0.0 when validate_pattern raises,
else the component sum capped at 10.  tol is
Config.PATTERN_VIOLATION_TOLERANCE. -/
def calculatePatternScore (tol : ℚ) (p : Pattern) (df : List Candle) : ℚ :=
  if validPattern p then
    min (strengthScore p + volumeBonus p df + recencyBonus p df +
      cleanMoveBonus tol p df) 10
  else 0

/-- timeframe_weights of calculate_mtf_pattern_score, .get default 0.2. -/
def confluenceWeight (tf : String) : ℚ :=
  if tf = "1m" then 0.2 else if tf = "5m" then 0.5
  else if tf = "15m" then 0.3 else 0.2

/-- Per-timeframe weights of calculate_trend_alignment, .get default 0.3. -/
def trendWeight (tf : String) : ℚ :=
  if tf = "1m" then 0.3 else if tf = "5m" then 0.5
  else if tf = "15m" then 0.7 else 0.3

/-- mtf_data[timeframe]; the trading loop only calls the scorer with a
timeframe present in the dict, so the default branch is unreachable
there. -/
def lookupDf (mtfData : List (String × List Candle)) (tf : String) :
    List Candle :=
  (((mtfData.find? (fun x => x.1 == tf)).map Prod.snd).getD [])

/-- Confluence bonus: 2 x weight for every same-type pattern of another
timeframe whose level is within 0.5 percent of this level. -/
def mtfConfluenceBonus (p : Pattern) (timeframe : String)
    (mtfPatterns : List (String × List Pattern)) : ℚ :=
  (mtfPatterns.map (fun e =>
    if e.1 = timeframe then 0
    else (e.2.map (fun q =>
      if q.type = p.type ∧ |q.level - p.level| / p.level < 0.005 then
        2 * confluenceWeight e.1
      else 0)).sum)).sum

/-- Final value of series.ewm(span, adjust=False).mean(): the recursive
EMA with alpha = 2 / (span + 1), seeded with the first element. -/
def emaLast (span : ℕ) (xs : List ℚ) : ℚ :=
  match xs with
  | [] => 0
  | x :: rest =>
    rest.foldl
      (fun acc y =>
        (2 / ((span : ℚ) + 1)) * y + (1 - 2 / ((span : ℚ) + 1)) * acc) x

/-- calculate_trend_alignment: sum of per-timeframe weights over the
timeframes (with at least 20 candles) whose EMA(8)/EMA(21) trend tag
matches the pattern type. -/
def calculateTrendAlignment (p : Pattern)
    (mtfData : List (String × List Candle)) : ℚ :=
  (mtfData.map (fun e =>
    if e.2.length < 20 then 0
    else
      let closes := e.2.map Candle.close
      let trend := if emaLast 21 closes < emaLast 8 closes
        then "bullish" else "bearish"
      if p.type = trend then trendWeight e.1 else 0)).sum

/-- calculate_mtf_pattern_score of bot_live.py: base score plus confluence
and trend bonuses, capped at 10. -/
def calculateMtfPatternScore (tol : ℚ) (p : Pattern) (timeframe : String)
    (mtfData : List (String × List Candle))
    (mtfPatterns : List (String × List Pattern)) : ℚ :=
  min (calculatePatternScore tol p (lookupDf mtfData timeframe) +
    mtfConfluenceBonus p timeframe mtfPatterns +
    calculateTrendAlignment p mtfData) 10

/-- The selection fold of BaseGoldBot.trading_loop: best_signal = None,
best_score = 0, update both whenever score ≥ MIN_PATTERN_SCORE and
score > best_score. -/
def selectBestSignal (minScore tol : ℚ) (blocks : List Pattern)
    (candles : List Candle) : Option Pattern × ℚ :=
  blocks.foldl
    (fun acc p =>
      let s := calculatePatternScore tol p candles
      if minScore ≤ s ∧ acc.2 < s then (some p, s) else acc)
    (none, 0)

/-- The static parameter object the core reads (Config / contract spec). -/
structure Config where
  tickSize : ℚ
  defaultStopTicks : ℚ
  maxStopTicks : ℚ
  tp1 : ℚ
  minPosition : ℤ
  maxPosition : ℤ
  defaultPosition : ℤ
  dailyLossLimit : ℚ
  maxConsecutiveLosses : ℕ
  sessionStart : ℚ
  sessionEnd : ℚ
  newsBlackoutStart : ℚ
  deriving Repr, DecidableEq

/-- BaseGoldBot.can_trade: daily loss limit, then consecutive losses, then
session window, then news blackout.  now is the wall-clock time of day. -/
def canTrade (cfg : Config) (dailyPnl : ℚ) (consecutiveLosses : ℕ)
    (now : ℚ) : Bool :=
  if dailyPnl ≤ -cfg.dailyLossLimit then false
  else if cfg.maxConsecutiveLosses ≤ consecutiveLosses then false
  else if ¬(cfg.sessionStart ≤ now ∧ now ≤ cfg.sessionEnd) then false
  else if cfg.newsBlackoutStart ≤ now then false
  else true

/-- BaseGoldBot.calculate_position_size: fixed default size, halved with a
floor at the instrument minimum after a loss, then clamped to the
instrument limits.  The stop-distance argument is accepted and ignored,
as in the source.  Python floor division // is Int.fdiv. -/
def calculatePositionSize (cfg : Config) (consecutiveLosses : ℕ)
    (stopDistanceTicks : ℤ) : ℤ :=
  let size := cfg.defaultPosition
  let size := if 1 ≤ consecutiveLosses then
    max cfg.minPosition (Int.fdiv size 2) else size
  max cfg.minPosition (min size cfg.maxPosition)

/-- Acceptance set of DataValidator.validate_order_params. -/
def validOrderParams (cfg : Config) (side : String) (quantity : ℤ)
    (stop target entry : ℚ) : Prop :=
  (side = "BUY" ∨ side = "SELL") ∧
  0 < quantity ∧
  cfg.minPosition ≤ quantity ∧ quantity ≤ cfg.maxPosition ∧
  validPrice stop ∧ validPrice target ∧ validPrice entry ∧
  |entry - stop| ≤ cfg.maxStopTicks * cfg.tickSize ∧
  (if side = "BUY" then stop < entry ∧ entry < target
   else target < entry ∧ entry < stop)

instance (cfg : Config) (side : String) (quantity : ℤ)
    (stop target entry : ℚ) :
    Decidable (validOrderParams cfg side quantity stop target entry) := by
  unfold validOrderParams; infer_instance

/-- The bracket order handed to place_order (entry is the current price). -/
structure Order where
  side : String
  quantity : ℤ
  stop_price : ℚ
  target_price : ℚ
  deriving Repr, DecidableEq

/-- BaseGoldBot.execute_signal: none models every early return (invalid
current price, pattern on the wrong side of price, invalid order
parameters); some o means o reaches place_order. -/
def executeSignal (cfg : Config) (signal : Pattern)
    (consecutiveLosses : ℕ) (candles : List Candle) : Option Order :=
  let currentPrice := (getC candles (candles.length - 1)).close
  if ¬ validPrice currentPrice then none
  else if signal.type = "bullish" then
    let stop := currentPrice - cfg.defaultStopTicks * cfg.tickSize
    let target := currentPrice + cfg.defaultStopTicks * cfg.tickSize * cfg.tp1
    if currentPrice < signal.level then none
    else
      let stopDistanceTicks := ⌊|currentPrice - stop| / cfg.tickSize⌋
      let size := calculatePositionSize cfg consecutiveLosses stopDistanceTicks
      if validOrderParams cfg "BUY" size stop target currentPrice then
        some ⟨"BUY", size, stop, target⟩
      else none
  else
    let stop := currentPrice + cfg.defaultStopTicks * cfg.tickSize
    let target := currentPrice - cfg.defaultStopTicks * cfg.tickSize * cfg.tp1
    if signal.level < currentPrice then none
    else
      let stopDistanceTicks := ⌊|currentPrice - stop| / cfg.tickSize⌋
      let size := calculatePositionSize cfg consecutiveLosses stopDistanceTicks
      if validOrderParams cfg "SELL" size stop target currentPrice then
        some ⟨"SELL", size, stop, target⟩
      else none

/-- MarketContext.calculate_atr: 0.0 with fewer than period + 1 candles,
else the mean of the true ranges of the last period candles, where the
true range of candle i combines its high/low with the close of candle
i-1. -/
def calculateAtr (candles : List Candle) (period : ℕ) : ℚ :=
  if candles.length < period + 1 then 0
  else
    let trueRanges := (List.range (candles.length - 1)).map (fun k =>
      let c := getC candles (k + 1)
      let prev := getC candles k
      max (|c.high - c.low|) (max (|c.high - prev.close|) (|c.low - prev.close|)))
    if period ≤ trueRanges.length then
      (trueRanges.drop (trueRanges.length - period)).sum / period
    else 0

/-- Modelled from the spec (section 4.1), for comparison with the code
only: avg_body[i] as the spec words it, the mean body size of the 20
candles strictly preceding index i, undefined for i < 20. -/
def avgBodyPrecedingSpec (df : List Candle) (i : ℕ) : Option ℚ :=
  if 20 ≤ i ∧ i < df.length then
    some ((((df.drop (i - 20)).take 20).map bodySize).sum / 20)
  else none

/-- The selection fold of the trading loop with the score function
abstracted, for reasoning; selectBestSignal is definitionally an
instance of it. -/
def selFold (minScore : ℚ) (f : Pattern → ℚ) (acc : Option Pattern × ℚ)
    (l : List Pattern) : Option Pattern × ℚ :=
  l.foldl (fun a p => if minScore ≤ f p ∧ a.2 < f p then (some p, f p) else a)
    acc

/-- The bullish branch condition of find_order_blocks at index i. -/
def bullCond (df : List Candle) (i : ℕ) (ab : ℚ) : Prop :=
  (getC df i).close < (getC df i).open_ ∧ 1.5 * ab < bodySize (getC df i) ∧
  (getC df i).high < (getC df (i + 1)).close ∧
  (getC df (i + 1)).open_ < (getC df (i + 1)).close

/-- The bearish elif condition of find_order_blocks at index i. -/
def bearCond (df : List Candle) (i : ℕ) (ab : ℚ) : Prop :=
  (getC df i).open_ < (getC df i).close ∧ 1.5 * ab < bodySize (getC df i) ∧
  (getC df (i + 1)).close < (getC df i).low ∧
  (getC df (i + 1)).close < (getC df (i + 1)).open_

instance (df : List Candle) (i : ℕ) (ab : ℚ) : Decidable (bullCond df i ab) := by
  unfold bullCond; infer_instance

instance (df : List Candle) (i : ℕ) (ab : ℚ) : Decidable (bearCond df i ab) := by
  unfold bearCond; infer_instance

/-- The dict appended by the bullish branch. -/
def bullPattern (df : List Candle) (i : ℕ) (ab : ℚ) : Pattern :=
  ⟨"bullish", (getC df i).low, (i : ℤ), (getC df i).timestamp,
    min (bodySize (getC df i) / ab) 3⟩

/-- The dict appended by the bearish branch. -/
def bearPattern (df : List Candle) (i : ℕ) (ab : ℚ) : Pattern :=
  ⟨"bearish", (getC df i).high, (i : ℤ), (getC df i).timestamp,
    min (bodySize (getC df i) / ab) 3⟩

/-! Concrete inputs used by the witnesses and counterexamples. -/

/-- 21 candles near 150: nineteen quiet bars, a large bearish bar at index
19, a bullish displacement bar at index 20.  Passes validate_candles_df. -/
def exDfA : List Candle :=
  (List.range 19).map (fun j => ⟨(j : ℤ), 150, 151, 148, 149, 100⟩) ++
    [⟨19, 152, 153, 147, 148, 100⟩, ⟨20, 150, 155, 149, 154, 100⟩]

/-- A structurally valid pattern dict carrying a negative strength. -/
def cePat3 : Pattern := ⟨"bullish", 2000, 0, 0, -5⟩

/-- 25 quiet candles near 150. -/
def ceDf3 : List Candle :=
  (List.range 25).map (fun j => ⟨(j : ℤ), 150, 151, 149, 150, 100⟩)

/-- A pattern whose index 100 is out of range for a 30-candle series. -/
def cePat4 : Pattern := ⟨"bullish", 150, 100, 0, 1⟩

/-- 30 quiet candles near 150. -/
def ceDf4 : List Candle :=
  (List.range 30).map (fun j => ⟨(j : ℤ), 150, 151, 149, 150, 100⟩)

/-- A pattern with an invalid type tag. -/
def cePat4b : Pattern := ⟨"sideways", 150, 3, 0, 1⟩

/-- A candidate engineered to score exactly 6.5 against c5Df. -/
def c5Pat : Pattern := ⟨"bullish", 148, 19, 0, 0.75⟩

/-- 30 quiet candles with a volume spike at index 19. -/
def c5Df : List Candle :=
  (List.range 30).map (fun j =>
    ⟨(j : ℤ), 150, 151, 149, 150, if j = 19 then 400 else 100⟩)

/-- A concrete configuration (session times in minutes of day). -/
def exCfg : Config :=
  ⟨0.25, 15, 30, 1, 1, 10, 2, 800, 2, 120, 1380, 1365⟩

/-- A bullish signal sitting above the current price of exCandles6. -/
def exSigHigh : Pattern := ⟨"bullish", 2010, 0, 0, 2⟩

/-- One candle closing at 2000. -/
def exCandles6 : List Candle := [⟨0, 2000, 2001, 1999, 2000, 10⟩]

/-- 15 candles whose true ranges are all 2. -/
def exDf9 : List Candle :=
  (List.range 15).map (fun j => ⟨(j : ℤ), 150, 151, 149, 150, 100⟩)

/-- 3 candles of an index future near 20000: every price is outside the
hardcoded gold bounds. -/
def exDf10 : List Candle :=
  (List.range 3).map (fun j => ⟨(j : ℤ), 20000, 20001, 19999, 20000, 5⟩)

/-! Claim theorems. -/

set_option maxRecDepth 40000

/-- Claim C7: for every trading state with daily_pnl ≤ -DAILY_LOSS_LIMIT,
can_trade() returns False regardless of consecutive_losses or the current
wall-clock time, and it remains False for every further loss. -/
theorem can_trade_monotone (cfg : Config) (pnl : ℚ)
    (h : pnl ≤ -cfg.dailyLossLimit) :
    (∀ losses now, canTrade cfg pnl losses now = false) ∧
    (∀ pnl', pnl' ≤ pnl →
      ∀ losses now, canTrade cfg pnl' losses now = false) := by
  constructor
  · intro losses now
    simp only [canTrade]
    rw [if_pos h]
  · intro pnl' hle losses now
    simp only [canTrade]
    rw [if_pos (hle.trans h)]

theorem can_trade_monotone_witness :
    canTrade exCfg (-800) 0 720 = false ∧
    canTrade exCfg (-900) 1 500 = false :=
  ⟨(can_trade_monotone exCfg (-800) (by decide)).1 0 720,
   (can_trade_monotone exCfg (-800) (by decide)).2 (-900) (by norm_num) 1 500⟩

/-- Claim C8: for every consecutive-loss count, calculate_position_size
stays within the instrument limits (given min_position ≤ max_position);
after at least one loss the default size is halved with a floor at the
minimum, and with no losses the default is used, each clamped. -/
theorem position_size_bounds (cfg : Config) (losses : ℕ) (d : ℤ)
    (h : cfg.minPosition ≤ cfg.maxPosition) :
    cfg.minPosition ≤ calculatePositionSize cfg losses d ∧
    calculatePositionSize cfg losses d ≤ cfg.maxPosition ∧
    (1 ≤ losses → cfg.minPosition ≤ Int.fdiv cfg.defaultPosition 2 →
      Int.fdiv cfg.defaultPosition 2 ≤ cfg.maxPosition →
      calculatePositionSize cfg losses d = Int.fdiv cfg.defaultPosition 2) ∧
    (1 ≤ losses → Int.fdiv cfg.defaultPosition 2 ≤ cfg.minPosition →
      calculatePositionSize cfg losses d = cfg.minPosition) ∧
    (losses = 0 → cfg.minPosition ≤ cfg.defaultPosition →
      cfg.defaultPosition ≤ cfg.maxPosition →
      calculatePositionSize cfg losses d = cfg.defaultPosition) := by
  simp only [calculatePositionSize]
  by_cases hl : 1 ≤ losses
  · rw [if_pos hl]
    generalize Int.fdiv cfg.defaultPosition 2 = t
    refine ⟨le_max_left _ _, max_le h (min_le_right _ _), ?_, ?_, ?_⟩
    · intro _ h1 h2
      rw [max_eq_right h1, min_eq_left h2, max_eq_right h1]
    · intro _ h1
      rw [max_eq_left h1, min_eq_left h, max_self]
    · intro h0
      omega
  · rw [if_neg hl]
    refine ⟨le_max_left _ _, max_le h (min_le_right _ _), ?_, ?_, ?_⟩
    · intro hx
      exact absurd hx hl
    · intro hx
      exact absurd hx hl
    · intro _ h1 h2
      rw [min_eq_left h2, max_eq_right h1]

theorem position_size_bounds_witness :
    (1 : ℤ) ≤ calculatePositionSize exCfg 1 10 ∧
    calculatePositionSize exCfg 1 10 ≤ 10 ∧
    calculatePositionSize exCfg 1 10 = 1 :=
  ⟨(position_size_bounds exCfg 1 10 (by decide)).1,
   (position_size_bounds exCfg 1 10 (by decide)).2.1,
   (position_size_bounds exCfg 1 10 (by decide)).2.2.2.1
     (by norm_num) (by decide)⟩

/-- Claim C10: the validator price bounds are the hardcoded constants 100
and 10000: any series containing a price outside them fails
validate_candles_df, a series all of whose prices lie outside them yields
an empty find_order_blocks result, and validate_price rejects every such
price. -/
theorem validator_hardcoded_bounds (df : List Candle) (maxAge : ℕ) :
    ((∃ c ∈ df,
        c.open_ < 100 ∨ 10000 < c.open_ ∨ c.high < 100 ∨ 10000 < c.high ∨
        c.low < 100 ∨ 10000 < c.low ∨ c.close < 100 ∨ 10000 < c.close) →
      ¬ validCandlesDf df) ∧
    ((∀ c ∈ df,
        (c.open_ < 100 ∨ 10000 < c.open_) ∧ (c.high < 100 ∨ 10000 < c.high) ∧
        (c.low < 100 ∨ 10000 < c.low) ∧ (c.close < 100 ∨ 10000 < c.close)) →
      findOrderBlocks maxAge df = []) ∧
    (∀ q : ℚ, q < 100 ∨ 10000 < q → ¬ validPrice q) := by
  have hbad : (∃ c ∈ df,
      c.open_ < 100 ∨ 10000 < c.open_ ∨ c.high < 100 ∨ 10000 < c.high ∨
      c.low < 100 ∨ 10000 < c.low ∨ c.close < 100 ∨ 10000 < c.close) →
      ¬ validCandlesDf df := by
    rintro ⟨c, hc, hb⟩ hv
    obtain ⟨ho, hh, hl, hcl⟩ := hv.2.1 c hc
    rcases hb with hb | hb | hb | hb | hb | hb | hb | hb
    · exact absurd ho.2.1 (by linarith)
    · exact absurd ho.2.2 (by linarith)
    · exact absurd hh.2.1 (by linarith)
    · exact absurd hh.2.2 (by linarith)
    · exact absurd hl.2.1 (by linarith)
    · exact absurd hl.2.2 (by linarith)
    · exact absurd hcl.2.1 (by linarith)
    · exact absurd hcl.2.2 (by linarith)
  refine ⟨hbad, ?_, ?_⟩
  · intro hall
    unfold findOrderBlocks
    by_cases h3 : df.length < 3
    · rw [if_pos h3]
    · rw [if_neg h3]
      have hne : df ≠ [] := by
        intro he
        rw [he] at h3
        simp at h3
      obtain ⟨c, hc⟩ := List.exists_mem_of_ne_nil df hne
      have hnv : ¬ validCandlesDf df := by
        refine hbad ⟨c, hc, ?_⟩
        rcases (hall c hc).1 with hx | hx
        · exact Or.inl hx
        · exact Or.inr (Or.inl hx)
      rw [if_neg hnv]
  · intro q hq hv
    rcases hq with hq | hq
    · exact absurd hv.2.1 (by linarith)
    · exact absurd hv.2.2 (by linarith)

theorem validator_hardcoded_bounds_witness :
    ¬ validCandlesDf exDf10 ∧ findOrderBlocks 50 exDf10 = [] ∧
    ¬ validPrice 20000 :=
  ⟨(validator_hardcoded_bounds exDf10 50).1 (by decide),
   (validator_hardcoded_bounds exDf10 50).2.1 (by decide),
   (validator_hardcoded_bounds exDf10 50).2.2 20000 (Or.inr (by norm_num))⟩

/-- Claim C4 counterexample: a structurally valid pattern whose index 100
is out of range for the 30-candle series is NOT rejected by
validate_pattern; the scorer still assigns it the recency bonus and
returns 4.0 instead of the claimed 0.0. -/
theorem pattern_score_out_of_range_counterexample :
    (ceDf4.length : ℤ) ≤ cePat4.index ∧
    calculatePatternScore 0.002 cePat4 ceDf4 = 4 := by
  constructor
  · decide
  · decide

/-- Claim C4 (amended): calculate_pattern_score fails closed, returning
0.0, for a type outside bullish/bearish, a level ≤ 0, or a negative
index; an index that is merely too large for the series is not rejected
and can still score (see the counterexample). -/
theorem pattern_score_fails_closed (tol : ℚ) (p : Pattern)
    (df : List Candle)
    (h : ¬(p.type = "bullish" ∨ p.type = "bearish") ∨ p.level ≤ 0 ∨
      p.index < 0) :
    calculatePatternScore tol p df = 0 := by
  unfold calculatePatternScore
  rw [if_neg]
  intro hv
  rcases h with h | h | h
  · exact h hv.1
  · exact absurd hv.2.1.1 (by linarith)
  · exact absurd hv.2.2 (not_le.mpr h)

theorem pattern_score_fails_closed_witness :
    calculatePatternScore 0.002 cePat4b ceDf4 = 0 :=
  pattern_score_fails_closed 0.002 cePat4b ceDf4 (Or.inl (by decide))

/-- Claim C3 counterexample: a pattern dict whose strength is -5 passes
validate_pattern (strength is never checked) and drives the strength
component to -10, so the returned score is negative, outside [0, 10]. -/
theorem pattern_score_negative_counterexample :
    calculatePatternScore 0.002 cePat3 ceDf3 < 0 := by
  decide

lemma strengthScore_bounds (p : Pattern) (h : 0 ≤ p.strength) :
    0 ≤ strengthScore p ∧ strengthScore p ≤ 3 :=
  ⟨le_min (mul_nonneg h (by norm_num)) (by norm_num), min_le_right _ _⟩

lemma volumeBonus_bounds (p : Pattern) (df : List Candle) :
    0 ≤ volumeBonus p df ∧ volumeBonus p df ≤ 2 := by
  unfold volumeBonus
  by_cases h1 : p.index < (df.length : ℤ)
  · rw [if_pos h1]
    cases havg : avgVolume df p.index.toNat with
    | none => norm_num
    | some av =>
      dsimp only
      split_ifs <;> norm_num
  · rw [if_neg h1]
    norm_num

lemma recencyBonus_bounds (p : Pattern) (df : List Candle) :
    0 ≤ recencyBonus p df ∧ recencyBonus p df ≤ 2 := by
  unfold recencyBonus
  split_ifs <;> norm_num

lemma cleanMoveBonus_bounds (tol : ℚ) (p : Pattern) (df : List Candle) :
    0 ≤ cleanMoveBonus tol p df ∧ cleanMoveBonus tol p df ≤ 2 := by
  unfold cleanMoveBonus
  by_cases ht : p.type = "bullish"
  · rw [if_pos ht]
    cases hm : ((df.drop p.index.toNat).map Candle.low).min? with
    | none => norm_num
    | some m =>
      dsimp only
      split_ifs <;> norm_num
  · rw [if_neg ht]
    cases hm : ((df.drop p.index.toNat).map Candle.high).max? with
    | none => norm_num
    | some m =>
      dsimp only
      split_ifs <;> norm_num

lemma calculatePatternScore_bounds (tol : ℚ) (p : Pattern)
    (df : List Candle) (h : 0 ≤ p.strength) :
    0 ≤ calculatePatternScore tol p df ∧
    calculatePatternScore tol p df ≤ 10 := by
  unfold calculatePatternScore
  split_ifs with hv
  · refine ⟨le_min ?_ (by norm_num), min_le_right _ _⟩
    have s1 := strengthScore_bounds p h
    have s2 := volumeBonus_bounds p df
    have s3 := recencyBonus_bounds p df
    have s4 := cleanMoveBonus_bounds tol p df
    linarith [s1.1, s2.1, s3.1, s4.1]
  · norm_num

lemma confluenceWeight_nonneg (tf : String) : 0 ≤ confluenceWeight tf := by
  unfold confluenceWeight
  split_ifs <;> norm_num

lemma trendWeight_nonneg (tf : String) : 0 ≤ trendWeight tf := by
  unfold trendWeight
  split_ifs <;> norm_num

lemma mtfConfluenceBonus_nonneg (p : Pattern) (timeframe : String)
    (mtfPatterns : List (String × List Pattern)) :
    0 ≤ mtfConfluenceBonus p timeframe mtfPatterns := by
  unfold mtfConfluenceBonus
  apply List.sum_nonneg
  intro x hx
  simp only [List.mem_map] at hx
  obtain ⟨e, _, rfl⟩ := hx
  split_ifs
  · exact le_rfl
  · apply List.sum_nonneg
    intro y hy
    simp only [List.mem_map] at hy
    obtain ⟨q, _, rfl⟩ := hy
    split_ifs
    · have := confluenceWeight_nonneg e.1
      linarith
    · exact le_rfl

lemma calculateTrendAlignment_nonneg (p : Pattern)
    (mtfData : List (String × List Candle)) :
    0 ≤ calculateTrendAlignment p mtfData := by
  unfold calculateTrendAlignment
  apply List.sum_nonneg
  intro x hx
  simp only [List.mem_map] at hx
  obtain ⟨e, _, rfl⟩ := hx
  split_ifs <;> first
  | exact le_rfl
  | exact trendWeight_nonneg e.1

/-- Claim C3 (amended): for every pattern with non-negative strength (in
particular every detector-produced pattern), calculate_pattern_score
stays in [0, 10]; with the level also nonzero, the multi-timeframe
variant stays in [0, 10] as well, however large the pre-clamp sum. -/
theorem score_bounds (tol : ℚ) (p : Pattern) (df : List Candle)
    (h : 0 ≤ p.strength) :
    (0 ≤ calculatePatternScore tol p df ∧
      calculatePatternScore tol p df ≤ 10) ∧
    (∀ timeframe mtfData mtfPatterns, p.level ≠ 0 →
      0 ≤ calculateMtfPatternScore tol p timeframe mtfData mtfPatterns ∧
      calculateMtfPatternScore tol p timeframe mtfData mtfPatterns ≤ 10) := by
  refine ⟨calculatePatternScore_bounds tol p df h, ?_⟩
  intro timeframe mtfData mtfPatterns _
  unfold calculateMtfPatternScore
  constructor
  · refine le_min ?_ (by norm_num)
    have b := calculatePatternScore_bounds tol p (lookupDf mtfData timeframe) h
    have c := mtfConfluenceBonus_nonneg p timeframe mtfPatterns
    have t := calculateTrendAlignment_nonneg p mtfData
    linarith [b.1]
  · exact min_le_right _ _

theorem score_bounds_witness :
    (0 ≤ calculatePatternScore 0.002 c5Pat c5Df ∧
      calculatePatternScore 0.002 c5Pat c5Df ≤ 10) ∧
    (0 ≤ calculateMtfPatternScore 0.002 c5Pat "5m"
        [("5m", c5Df)] [("5m", [c5Pat])] ∧
      calculateMtfPatternScore 0.002 c5Pat "5m"
        [("5m", c5Df)] [("5m", [c5Pat])] ≤ 10) :=
  ⟨(score_bounds 0.002 c5Pat c5Df (by decide)).1,
   (score_bounds 0.002 c5Pat c5Df (by decide)).2 "5m"
     [("5m", c5Df)] [("5m", [c5Pat])] (by decide)⟩

/-- Claim C6: with latest close P, a bullish signal whose level exceeds P
places no order (mirror for bearish below P); every order that reaches
place_order carries the configured stop and target offsets and satisfies
stop < entry < target for BUY and target < entry < stop for SELL; any
validation failure places no order (none is the only other outcome). -/
theorem execute_signal_spec (cfg : Config) (signal : Pattern)
    (losses : ℕ) (candles : List Candle) :
    (signal.type = "bullish" →
      (getC candles (candles.length - 1)).close < signal.level →
      executeSignal cfg signal losses candles = none) ∧
    (signal.type ≠ "bullish" →
      signal.level < (getC candles (candles.length - 1)).close →
      executeSignal cfg signal losses candles = none) ∧
    (∀ o, executeSignal cfg signal losses candles = some o →
      (signal.type = "bullish" →
        o.side = "BUY" ∧
        o.stop_price = (getC candles (candles.length - 1)).close -
          cfg.defaultStopTicks * cfg.tickSize ∧
        o.target_price = (getC candles (candles.length - 1)).close +
          cfg.defaultStopTicks * cfg.tickSize * cfg.tp1 ∧
        o.stop_price < (getC candles (candles.length - 1)).close ∧
        (getC candles (candles.length - 1)).close < o.target_price) ∧
      (signal.type ≠ "bullish" →
        o.side = "SELL" ∧
        o.stop_price = (getC candles (candles.length - 1)).close +
          cfg.defaultStopTicks * cfg.tickSize ∧
        o.target_price = (getC candles (candles.length - 1)).close -
          cfg.defaultStopTicks * cfg.tickSize * cfg.tp1 ∧
        o.target_price < (getC candles (candles.length - 1)).close ∧
        (getC candles (candles.length - 1)).close < o.stop_price)) := by
  refine ⟨?_, ?_, ?_⟩
  · intro ht hlt
    unfold executeSignal
    dsimp only
    by_cases hv : validPrice ((getC candles (candles.length - 1)).close)
    · rw [if_neg (not_not_intro hv), if_pos ht, if_pos hlt]
    · rw [if_pos hv]
  · intro ht hlt
    unfold executeSignal
    dsimp only
    by_cases hv : validPrice ((getC candles (candles.length - 1)).close)
    · rw [if_neg (not_not_intro hv), if_neg ht, if_pos hlt]
    · rw [if_pos hv]
  · intro o ho
    unfold executeSignal at ho
    dsimp only at ho
    split_ifs at ho with hv ht hlt hvo hlt2 hvo2
    all_goals try exact Option.noConfusion ho
    · have hside := hvo.2.2.2.2.2.2.2.2
      rw [if_pos rfl] at hside
      injection ho with ho
      subst ho
      constructor
      · intro _
        exact ⟨rfl, rfl, rfl, hside.1, hside.2⟩
      · intro hne
        exact absurd ht hne
    · have hside := hvo2.2.2.2.2.2.2.2.2
      rw [if_neg (by decide)] at hside
      injection ho with ho
      subst ho
      constructor
      · intro hb
        exact absurd hb ht
      · intro _
        exact ⟨rfl, rfl, rfl, hside.1, hside.2⟩

theorem execute_signal_spec_witness :
    executeSignal exCfg exSigHigh 0 exCandles6 = none :=
  (execute_signal_spec exCfg exSigHigh 0 exCandles6).1 (by decide) (by decide)

lemma list_range_map_sum (f : ℕ → ℚ) (n : ℕ) :
    ((List.range n).map f).sum = ∑ k ∈ Finset.range n, f k := by
  induction n with
  | zero => simp
  | succ m ih => rw [List.range_succ, Finset.sum_range_succ, List.map_append,
      List.sum_append, ih]; simp

lemma list_sum_eq_getD (t : List ℚ) :
    t.sum = ∑ j ∈ Finset.range t.length, t.getD j 0 := by
  induction t with
  | nil => simp
  | cons x xs ih =>
    rw [List.sum_cons, List.length_cons, Finset.sum_range_succ', ih]
    simp [add_comm]

lemma getD_take_drop (l : List ℚ) (m w j : ℕ) (hj : j < w) :
    ((l.drop m).take w).getD j 0 = l.getD (m + j) 0 := by
  simp [List.getD_eq_getElem?_getD, List.getElem?_take, hj, List.getElem?_drop]

lemma sum_range20_getD (l : List ℚ) (i : ℕ) (h19 : 19 ≤ i)
    (hlen : i < l.length) :
    ((List.range 20).map (fun k => l.getD (i - k) 0)).sum =
    ((l.drop (i - 19)).take 20).sum := by
  rw [list_range_map_sum, list_sum_eq_getD]
  have hl : ((l.drop (i - 19)).take 20).length = 20 := by
    rw [List.length_take, List.length_drop]
    omega
  rw [hl]
  rw [← Finset.sum_range_reflect]
  apply Finset.sum_congr rfl
  intro j hj
  rw [Finset.mem_range] at hj
  rw [getD_take_drop l (i - 19) 20 j hj]
  congr 1
  omega

lemma avgBody_none_iff (df : List Candle) (i : ℕ) :
    avgBody df i = none ↔ (i < 19 ∨ df.length ≤ i) := by
  unfold avgBody rollingMean20
  rw [List.length_map]
  split_ifs with h
  · simp only [reduceCtorEq, false_iff]
    omega
  · simp only [true_iff]
    omega

lemma detectAt_of_avgBody_none (df : List Candle) (i : ℕ)
    (h : avgBody df i = none) : detectAt df i = none := by
  unfold detectAt
  rw [h]

lemma detectAt_of_avgBody_nonpos (df : List Candle) (i : ℕ) (ab : ℚ)
    (h : avgBody df i = some ab) (h0 : ab ≤ 0) : detectAt df i = none := by
  unfold detectAt
  rw [h]
  dsimp only
  rw [if_pos h0]

lemma detectAt_some_facts (df : List Candle) (i : ℕ) (p : Pattern)
    (h : detectAt df i = some p) :
    ∃ ab, avgBody df i = some ab ∧ 0 < ab ∧ p.index = (i : ℤ) ∧
      (p.type = "bullish" ∨ p.type = "bearish") := by
  unfold detectAt at h
  cases hab : avgBody df i with
  | none =>
    rw [hab] at h
    exact Option.noConfusion h
  | some ab =>
    rw [hab] at h
    dsimp only at h
    split_ifs at h with h0 h1 h2
    · injection h with h
      subst h
      exact ⟨ab, rfl, not_le.mp h0, rfl, Or.inl rfl⟩
    · injection h with h
      subst h
      exact ⟨ab, rfl, not_le.mp h0, rfl, Or.inr rfl⟩

lemma mem_findOrderBlocks (maxAge : ℕ) (df : List Candle) (p : Pattern)
    (h3 : 3 ≤ df.length) (hv : validCandlesDf df) :
    p ∈ findOrderBlocks maxAge df ↔
      ∃ i ∈ List.range' (df.length - maxAge)
        (df.length - 1 - (df.length - maxAge)), detectAt df i = some p := by
  unfold findOrderBlocks
  rw [if_neg (by omega), if_pos hv, List.mem_filterMap]

/-- Claim C2 (amended): avg_body is the 20-candle rolling mean ENDING at
index i inclusive (pandas rolling(20).mean()), so it is NaN exactly for
i < 19 rather than i < 20; indices with NaN or non-positive avg_body are
skipped by detection, and consequently no emitted pattern can have an
index below 19 — in particular a setup at index 10 never emits. -/
theorem avg_body_spec (df : List Candle) (i : ℕ) :
    (i < 19 ∨ df.length ≤ i → avgBody df i = none) ∧
    (19 ≤ i → i < df.length →
      avgBody df i =
        some ((((df.drop (i - 19)).take 20).map bodySize).sum / 20)) ∧
    (avgBody df i = none → detectAt df i = none) ∧
    (∀ ab, avgBody df i = some ab → ab ≤ 0 → detectAt df i = none) ∧
    (∀ maxAge, ∀ p ∈ findOrderBlocks maxAge df, (19 : ℤ) ≤ p.index) := by
  refine ⟨?_, ?_, detectAt_of_avgBody_none df i,
    fun ab h h0 => detectAt_of_avgBody_nonpos df i ab h h0, ?_⟩
  · intro h
    exact (avgBody_none_iff df i).mpr h
  · intro h19 hlen
    unfold avgBody rollingMean20
    rw [if_pos ⟨h19, by rw [List.length_map]; exact hlen⟩]
    congr 1
    rw [sum_range20_getD (df.map bodySize) i h19
      (by rw [List.length_map]; exact hlen)]
    rw [← List.map_drop, ← List.map_take]
  · intro maxAge p hp
    by_cases h3 : 3 ≤ df.length
    · by_cases hv : validCandlesDf df
      · rw [mem_findOrderBlocks maxAge df p h3 hv] at hp
        obtain ⟨j, _, hdet⟩ := hp
        obtain ⟨ab, hab, _, hidx, _⟩ := detectAt_some_facts df j p hdet
        have hj : ¬(j < 19 ∨ df.length ≤ j) := by
          intro hcon
          rw [(avgBody_none_iff df j).mpr hcon] at hab
          exact Option.noConfusion hab
        rw [hidx]
        omega
      · unfold findOrderBlocks at hp
        rw [if_neg (by omega), if_neg hv] at hp
        exact absurd hp (List.not_mem_nil p)
    · unfold findOrderBlocks at hp
      rw [if_pos (by omega)] at hp
      exact absurd hp (List.not_mem_nil p)

theorem avg_body_spec_witness :
    avgBody exDfA 5 = none ∧ detectAt exDfA 5 = none := by
  have h1 := (avg_body_spec exDfA 5).1 (Or.inl (by norm_num))
  exact ⟨h1, (avg_body_spec exDfA 5).2.2.1 h1⟩

/-- Claim C2 counterexample: in a 21-candle series, avg_body at index
19 < 20 is already defined (rolling(20) includes candle i itself), it
differs from the spec-worded mean of the 20 preceding candles, and the
detector emits a pattern at index 19, which the claim says must be
skipped. -/
theorem avg_body_window_counterexample :
    avgBody exDfA 19 ≠ none ∧
    avgBody exDfA 19 ≠ avgBodyPrecedingSpec exDfA 19 ∧
    findOrderBlocks 50 exDfA = [⟨"bullish", 147, 19, 19, 3⟩] := by
  refine ⟨by decide, by decide, by decide⟩

lemma drop_range (n m : ℕ) (h : m ≤ n) :
    (List.range n).drop m = List.range' m (n - m) := by
  have h1 : List.range' 0 m ++ List.range' m (n - m) = List.range' 0 n := by
    have h2 := List.range'_append 0 m (n - m) 1
    simp only [Nat.one_mul, Nat.zero_add] at h2
    rw [h2]
    congr 1
    omega
  rw [List.range_eq_range', ← h1]
  exact List.drop_left' (by simp)

/-- Claim C9: for every candle list long enough for the window (and with
the OHLC invariant low ≤ high), calculate_atr(period) is the mean of the
true ranges of the last period candles, the true range of candle i being
max(high - low, abs(high - prevClose), abs(low - prevClose)) against the
immediately preceding close. -/
theorem calculate_atr_spec (candles : List Candle) (period : ℕ)
    (hp : 0 < period) (hlen : period + 1 ≤ candles.length)
    (hc : ∀ c ∈ candles, c.low ≤ c.high) :
    calculateAtr candles period =
      (((List.range period).map (fun j =>
        max ((getC candles (candles.length - period + j)).high -
            (getC candles (candles.length - period + j)).low)
          (max |(getC candles (candles.length - period + j)).high -
              (getC candles (candles.length - period + j - 1)).close|
            |(getC candles (candles.length - period + j)).low -
              (getC candles (candles.length - period + j - 1)).close|))).sum) /
        period := by
  unfold calculateAtr
  rw [if_neg (by omega)]
  dsimp only
  rw [List.length_map, List.length_range]
  rw [if_pos (by omega)]
  rw [← List.map_drop]
  rw [drop_range (candles.length - 1) (candles.length - 1 - period) (by omega)]
  have e0 : candles.length - 1 - (candles.length - 1 - period) = period := by
    omega
  rw [e0, List.range'_eq_map_range, List.map_map]
  refine congrArg (fun z : ℚ => z / (period : ℚ)) ?_
  refine congrArg List.sum ?_
  apply List.map_congr_left
  intro j hj
  rw [List.mem_range] at hj
  dsimp only [Function.comp]
  have e1 : candles.length - 1 - period + j + 1 = candles.length - period + j := by
    omega
  have e2 : candles.length - 1 - period + j = candles.length - period + j - 1 := by
    omega
  rw [e1, e2]
  have hmem : getC candles (candles.length - period + j) ∈ candles := by
    unfold getC
    rw [List.getD_eq_getElem?_getD, List.getElem?_eq_getElem (by omega)]
    exact List.getElem_mem _
  rw [abs_of_nonneg (sub_nonneg.mpr (hc _ hmem))]

theorem calculate_atr_spec_witness : calculateAtr exDf9 14 = 2 := by
  rw [calculate_atr_spec exDf9 14 (by norm_num) (by decide) (by decide)]
  decide

lemma selFold_nil (minScore : ℚ) (f : Pattern → ℚ)
    (acc : Option Pattern × ℚ) : selFold minScore f acc [] = acc := rfl

lemma selFold_cons (minScore : ℚ) (f : Pattern → ℚ)
    (acc : Option Pattern × ℚ) (x : Pattern) (t : List Pattern) :
    selFold minScore f acc (x :: t) =
      selFold minScore f
        (if minScore ≤ f x ∧ acc.2 < f x then (some x, f x) else acc) t := rfl

lemma selectBestSignal_eq_selFold (minScore tol : ℚ) (blocks : List Pattern)
    (candles : List Candle) :
    selectBestSignal minScore tol blocks candles =
      selFold minScore (fun p => calculatePatternScore tol p candles)
        (none, 0) blocks := rfl

lemma select_fold_spec (minScore : ℚ) (f : Pattern → ℚ) (hmin : 0 < minScore) :
    ∀ (l : List Pattern) (acc : Option Pattern × ℚ),
    (acc.1 = none → acc.2 = 0) →
    (∀ q, acc.1 = some q → acc.2 = f q ∧ minScore ≤ acc.2) →
    (((selFold minScore f acc l).1 = none ↔
        acc.1 = none ∧ ∀ q ∈ l, f q < minScore) ∧
      ∀ p, (selFold minScore f acc l).1 = some p →
        (selFold minScore f acc l).2 = f p ∧
        minScore ≤ (selFold minScore f acc l).2 ∧
        ((acc = (some p, (selFold minScore f acc l).2) ∧
            ∀ q ∈ l, f q ≤ (selFold minScore f acc l).2) ∨
          (∃ l₁ l₂, l = l₁ ++ p :: l₂ ∧
            (∀ q ∈ l₁, f q < (selFold minScore f acc l).2) ∧
            (∀ q ∈ l₂, f q ≤ (selFold minScore f acc l).2) ∧
            acc.2 < (selFold minScore f acc l).2))) := by
  intro l
  induction l with
  | nil =>
    intro acc hnone hsome
    rw [selFold_nil]
    constructor
    · simp
    · intro p hp
      refine ⟨(hsome p hp).1, (hsome p hp).2, Or.inl ⟨?_, by simp⟩⟩
      obtain ⟨a1, a2⟩ := acc
      simp only at hp
      rw [hp]
  | cons x t ih =>
    intro acc hnone hsome
    rw [selFold_cons]
    by_cases hc : minScore ≤ f x ∧ acc.2 < f x
    · rw [if_pos hc]
      have hnone' : ((some x, f x) : Option Pattern × ℚ).1 = none →
          ((some x, f x) : Option Pattern × ℚ).2 = 0 := by
        intro h
        exact Option.noConfusion h
      have hsome' : ∀ q, ((some x, f x) : Option Pattern × ℚ).1 = some q →
          ((some x, f x) : Option Pattern × ℚ).2 = f q ∧
          minScore ≤ ((some x, f x) : Option Pattern × ℚ).2 := by
        intro q hq
        injection hq with hq
        subst hq
        exact ⟨rfl, hc.1⟩
      obtain ⟨ih1, ih2⟩ := ih (some x, f x) hnone' hsome'
      constructor
      · constructor
        · intro h
          obtain ⟨hfalse, _⟩ := ih1.mp h
          exact Option.noConfusion hfalse
        · rintro ⟨_, hall⟩
          exact absurd (hall x (List.mem_cons_self x t)) (not_lt.mpr hc.1)
      · intro p hp
        obtain ⟨hsc, hmin', hcase⟩ := ih2 p hp
        refine ⟨hsc, hmin', Or.inr ?_⟩
        rcases hcase with ⟨hacc, hall⟩ | ⟨l₁, l₂, hsplit, hlt, hle, hinc⟩
        · have h1 : some x = some p := congrArg Prod.fst hacc
          have h2 : f x = (selFold minScore f (some x, f x) t).2 :=
            congrArg Prod.snd hacc
          injection h1 with h1
          subst h1
          refine ⟨[], t, by simp, by simp, ?_, ?_⟩
          · intro q hq
            exact hall q hq
          · rw [← h2]
            exact hc.2
        · refine ⟨x :: l₁, l₂, by rw [hsplit, List.cons_append], ?_, hle, ?_⟩
          · intro q hq
            rcases List.mem_cons.mp hq with rfl | hq'
            · exact hinc
            · exact hlt q hq'
          · exact lt_trans hc.2 hinc
    · rw [if_neg hc]
      obtain ⟨ih1, ih2⟩ := ih acc hnone hsome
      constructor
      · constructor
        · intro h
          obtain ⟨h1, h2⟩ := ih1.mp h
          refine ⟨h1, ?_⟩
          intro q hq
          rcases List.mem_cons.mp hq with rfl | hq'
          · by_contra hge
            push_neg at hge
            refine hc ⟨hge, ?_⟩
            rw [hnone h1]
            exact lt_of_lt_of_le hmin hge
          · exact h2 q hq'
        · rintro ⟨h1, hall⟩
          exact ih1.mpr ⟨h1, fun q hq => hall q (List.mem_cons_of_mem x hq)⟩
      · intro p hp
        obtain ⟨hsc, hmin', hcase⟩ := ih2 p hp
        refine ⟨hsc, hmin', ?_⟩
        rcases hcase with ⟨hacc, hall⟩ | ⟨l₁, l₂, hsplit, hlt, hle, hinc⟩
        · refine Or.inl ⟨hacc, ?_⟩
          intro q hq
          rcases List.mem_cons.mp hq with rfl | hq'
          · have hacc1 : acc.1 = some p := by rw [hacc]
            have hacc2 : acc.2 = (selFold minScore f acc t).2 := by
              conv_lhs => rw [hacc]
            rcases not_and_or.mp hc with hns | hns
            · rw [← hacc2]
              exact le_of_lt (lt_of_lt_of_le (not_le.mp hns)
                (hsome p hacc1).2)
            · rw [← hacc2]
              exact not_lt.mp hns
          · exact hall q hq'
        · refine Or.inr ⟨x :: l₁, l₂, by rw [hsplit, List.cons_append], ?_, hle, hinc⟩
          intro q hq
          rcases List.mem_cons.mp hq with rfl | hq'
          · rcases not_and_or.mp hc with hns | hns
            · exact lt_of_lt_of_le (not_le.mp hns) hmin'
            · exact lt_of_le_of_lt (not_lt.mp hns) hinc
          · exact hlt q hq'

/-- Claim C5: the trading-loop selection keeps only candidates scoring at
least the (positive) configured minimum, returns None when none qualifies
(in particular a sole 6.5 candidate against threshold 7), and otherwise
picks the maximum score, ties going to the candidate appearing first in
the list — for the detector output, sorted by index, the earliest
detection index. -/
theorem select_best_signal_spec (minScore tol : ℚ) (blocks : List Pattern)
    (candles : List Candle) (hmin : 0 < minScore)
    (hsort : blocks.Pairwise (fun a b => a.index < b.index)) :
    ((selectBestSignal minScore tol blocks candles).1 = none ↔
      ∀ q ∈ blocks, calculatePatternScore tol q candles < minScore) ∧
    (∀ p, (selectBestSignal minScore tol blocks candles).1 = some p →
      (selectBestSignal minScore tol blocks candles).2 =
        calculatePatternScore tol p candles ∧
      minScore ≤ (selectBestSignal minScore tol blocks candles).2 ∧
      p ∈ blocks ∧
      (∀ q ∈ blocks, calculatePatternScore tol q candles ≤
        (selectBestSignal minScore tol blocks candles).2) ∧
      (∀ q ∈ blocks, calculatePatternScore tol q candles =
        (selectBestSignal minScore tol blocks candles).2 →
        p.index ≤ q.index)) := by
  rw [selectBestSignal_eq_selFold]
  obtain ⟨h1, h2⟩ := select_fold_spec minScore
    (fun p => calculatePatternScore tol p candles) hmin blocks (none, 0)
    (fun _ => rfl) (fun q hq => Option.noConfusion hq)
  constructor
  · rw [h1]
    simp
  · intro p hp
    obtain ⟨hsc, hmin', hcase⟩ := h2 p hp
    rcases hcase with ⟨hacc, _⟩ | ⟨l₁, l₂, hsplit, hlt, hle, _⟩
    · exact absurd (congrArg Prod.fst hacc) (by simp)
    · have hmem : p ∈ blocks := by
        rw [hsplit]
        exact List.mem_append_right l₁ (List.mem_cons_self p l₂)
      refine ⟨hsc, hmin', hmem, ?_, ?_⟩
      · intro q hq
        rw [hsplit] at hq
        rcases List.mem_append.mp hq with hq1 | hq2
        · exact le_of_lt (hlt q hq1)
        · rcases List.mem_cons.mp hq2 with rfl | hq3
          · rw [hsc]
          · exact hle q hq3
      · intro q hq heq
        rw [hsplit] at hq
        rcases List.mem_append.mp hq with hq1 | hq2
        · exact absurd heq (ne_of_lt (hlt q hq1))
        · rcases List.mem_cons.mp hq2 with rfl | hq3
          · exact le_rfl
          · have hp2 : (p :: l₂).Pairwise (fun a b => a.index < b.index) :=
              (hsplit ▸ hsort).sublist (List.sublist_append_right l₁ (p :: l₂))
            exact le_of_lt ((List.pairwise_cons.mp hp2).1 q hq3)

theorem select_best_signal_spec_witness :
    (selectBestSignal 7 0.002 [c5Pat] c5Df).1 = none :=
  ((select_best_signal_spec 7 0.002 [c5Pat] c5Df (by norm_num)
    (by simp)).1).mpr (by decide)

lemma detectAt_eq_some_iff (df : List Candle) (i : ℕ) (p : Pattern) :
    detectAt df i = some p ↔
      ∃ ab, avgBody df i = some ab ∧ 0 < ab ∧
        ((bullCond df i ab ∧ p = bullPattern df i ab) ∨
          (bearCond df i ab ∧ p = bearPattern df i ab)) := by
  constructor
  · intro h
    unfold detectAt at h
    cases hab : avgBody df i with
    | none =>
      rw [hab] at h
      exact Option.noConfusion h
    | some ab =>
      rw [hab] at h
      dsimp only at h
      split_ifs at h with h0 h1 h2
      · refine ⟨ab, rfl, not_le.mp h0, Or.inl ⟨h1, ?_⟩⟩
        injection h with h
        exact h.symm
      · refine ⟨ab, rfl, not_le.mp h0, Or.inr ⟨h2, ?_⟩⟩
        injection h with h
        exact h.symm
  · rintro ⟨ab, hab, h0, hcase⟩
    unfold detectAt
    rw [hab]
    dsimp only
    rw [if_neg (not_le.mpr h0)]
    rcases hcase with ⟨hcond, rfl⟩ | ⟨hcond, rfl⟩
    · unfold bullCond at hcond
      rw [if_pos hcond]
      rfl
    · unfold bearCond at hcond
      have hnb : ¬((getC df i).close < (getC df i).open_ ∧
          1.5 * ab < bodySize (getC df i) ∧
          (getC df i).high < (getC df (i + 1)).close ∧
          (getC df (i + 1)).open_ < (getC df (i + 1)).close) := by
        intro hbull
        exact lt_asymm hbull.1 hcond.1
      rw [if_neg hnb, if_pos hcond]
      rfl

/-- Claim C1: over a validated series, find_order_blocks emits a bullish
pattern at i exactly when i lies in the scan window
[max(0, len - maxAge), len - 2], avg_body at i is defined and positive,
and the bullish branch condition holds (bearish mirrored); the emitted
dicts carry level, index, timestamp and capped strength as built by the
branch; no pattern falls outside the window; indices are strictly
increasing, so each candle seeds at most one pattern and the output is in
ascending index order. -/
theorem find_order_blocks_spec (maxAge : ℕ) (df : List Candle)
    (h3 : 3 ≤ df.length) (hv : validCandlesDf df) :
    (∀ i : ℕ,
      (∃ p ∈ findOrderBlocks maxAge df,
          p.type = "bullish" ∧ p.index = (i : ℤ)) ↔
      (df.length - maxAge ≤ i ∧ i + 2 ≤ df.length ∧
        ∃ ab, avgBody df i = some ab ∧ 0 < ab ∧ bullCond df i ab)) ∧
    (∀ p ∈ findOrderBlocks maxAge df, p.type = "bullish" →
      ∃ i : ℕ, ∃ ab, avgBody df i = some ab ∧ p = bullPattern df i ab) ∧
    (∀ i : ℕ,
      (∃ p ∈ findOrderBlocks maxAge df,
          p.type = "bearish" ∧ p.index = (i : ℤ)) ↔
      (df.length - maxAge ≤ i ∧ i + 2 ≤ df.length ∧
        ∃ ab, avgBody df i = some ab ∧ 0 < ab ∧ bearCond df i ab)) ∧
    (∀ p ∈ findOrderBlocks maxAge df, p.type = "bearish" →
      ∃ i : ℕ, ∃ ab, avgBody df i = some ab ∧ p = bearPattern df i ab) ∧
    (∀ p ∈ findOrderBlocks maxAge df, ∃ i : ℕ, p.index = (i : ℤ) ∧
      df.length - maxAge ≤ i ∧ i + 2 ≤ df.length) ∧
    (findOrderBlocks maxAge df).Pairwise (fun p q => p.index < q.index) := by
  refine ⟨?_, ?_, ?_, ?_, ?_, ?_⟩
  · intro i
    constructor
    · rintro ⟨p, hp, htype, hidx⟩
      rw [mem_findOrderBlocks maxAge df p h3 hv] at hp
      obtain ⟨j, hjmem, hdet⟩ := hp
      rw [List.mem_range'_1] at hjmem
      obtain ⟨ab, hab, h0, hcase⟩ := (detectAt_eq_some_iff df j p).mp hdet
      rcases hcase with ⟨hcond, rfl⟩ | ⟨hcond, rfl⟩
      · have hij : j = i := by
          simpa [bullPattern] using hidx
        subst hij
        exact ⟨by omega, by omega, ab, hab, h0, hcond⟩
      · simp [bearPattern] at htype
    · rintro ⟨hw1, hw2, ab, hab, h0, hcond⟩
      refine ⟨bullPattern df i ab, ?_, rfl, rfl⟩
      rw [mem_findOrderBlocks maxAge df _ h3 hv]
      refine ⟨i, ?_, ?_⟩
      · rw [List.mem_range'_1]
        omega
      · rw [detectAt_eq_some_iff]
        exact ⟨ab, hab, h0, Or.inl ⟨hcond, rfl⟩⟩
  · intro p hp htype
    rw [mem_findOrderBlocks maxAge df p h3 hv] at hp
    obtain ⟨j, _, hdet⟩ := hp
    obtain ⟨ab, hab, _, hcase⟩ := (detectAt_eq_some_iff df j p).mp hdet
    rcases hcase with ⟨_, rfl⟩ | ⟨_, rfl⟩
    · exact ⟨j, ab, hab, rfl⟩
    · simp [bearPattern] at htype
  · intro i
    constructor
    · rintro ⟨p, hp, htype, hidx⟩
      rw [mem_findOrderBlocks maxAge df p h3 hv] at hp
      obtain ⟨j, hjmem, hdet⟩ := hp
      rw [List.mem_range'_1] at hjmem
      obtain ⟨ab, hab, h0, hcase⟩ := (detectAt_eq_some_iff df j p).mp hdet
      rcases hcase with ⟨hcond, rfl⟩ | ⟨hcond, rfl⟩
      · simp [bullPattern] at htype
      · have hij : j = i := by
          simpa [bearPattern] using hidx
        subst hij
        exact ⟨by omega, by omega, ab, hab, h0, hcond⟩
    · rintro ⟨hw1, hw2, ab, hab, h0, hcond⟩
      refine ⟨bearPattern df i ab, ?_, rfl, rfl⟩
      rw [mem_findOrderBlocks maxAge df _ h3 hv]
      refine ⟨i, ?_, ?_⟩
      · rw [List.mem_range'_1]
        omega
      · rw [detectAt_eq_some_iff]
        exact ⟨ab, hab, h0, Or.inr ⟨hcond, rfl⟩⟩
  · intro p hp htype
    rw [mem_findOrderBlocks maxAge df p h3 hv] at hp
    obtain ⟨j, _, hdet⟩ := hp
    obtain ⟨ab, hab, _, hcase⟩ := (detectAt_eq_some_iff df j p).mp hdet
    rcases hcase with ⟨_, rfl⟩ | ⟨_, rfl⟩
    · simp [bullPattern] at htype
    · exact ⟨j, ab, hab, rfl⟩
  · intro p hp
    rw [mem_findOrderBlocks maxAge df p h3 hv] at hp
    obtain ⟨j, hjmem, hdet⟩ := hp
    rw [List.mem_range'_1] at hjmem
    obtain ⟨ab, hab, h0, hidx, _⟩ := detectAt_some_facts df j p hdet
    exact ⟨j, hidx, by omega, by omega⟩
  · have hrw : findOrderBlocks maxAge df =
        (List.range' (df.length - maxAge)
          (df.length - 1 - (df.length - maxAge))).filterMap (detectAt df) := by
      unfold findOrderBlocks
      rw [if_neg (by omega), if_pos hv]
    rw [hrw]
    refine List.Pairwise.filterMap (detectAt df) ?_
      (List.pairwise_lt_range' _ _)
    intro a a' haa b hb b' hb'
    obtain ⟨_, _, _, hidx, _⟩ :=
      detectAt_some_facts df a b (Option.mem_def.mp hb)
    obtain ⟨_, _, _, hidx', _⟩ :=
      detectAt_some_facts df a' b' (Option.mem_def.mp hb')
    rw [hidx, hidx']
    exact_mod_cast haa

theorem find_order_blocks_spec_witness :
    findOrderBlocks 50 exDfA ≠ [] := by
  obtain ⟨p, hp, -, -⟩ := ((find_order_blocks_spec 50 exDfA (by decide)
    (by decide)).1 19).mpr
    ⟨by decide, by decide, 23/20, by decide, by norm_num, by decide⟩
  exact List.ne_nil_of_mem hp

end TradingBot
